import Mathlib

/-
Verification of the Steam metadata extractor (`extractor.py`).

The script is a single-pass batch utility: for each URL read from the input
file it extracts a numeric app id, fetches the appdetails envelope from the
Steam API, normalizes it into a small payload, and writes one JSON artifact
per app id.  The embedding below translates each function of the script into
a Lean function; the file system is passed explicitly as an association list
from paths to file contents, and the network is an environment parameter.
-/

namespace Steam

/-- JSON-like values exchanged with the Steam appdetails endpoint and written
to the output artifacts.  Floating point numbers never occur in the fields the
script reads or writes in the verified claims, so numbers are modelled as
integers. -/
inductive JValue where
  | null
  | bool (b : Bool)
  | num (n : Int)
  | str (s : String)
  | arr (xs : List JValue)
  | obj (fields : List (String × JValue))

/-- Failure channel of the script.  `steam` is the script's own
`SteamExtractorError` with its message (line 11); the other constructors model
the built-in Python exceptions that can escape a stage and reach the driver's
generic handler (line 103). -/
inductive PyErr where
  | steam (msg : String)
  | typeErr (msg : String)
  | attrErr (msg : String)
  | keyErr (msg : String)

/-- Message shown for a `PyErr` by the driver's two handlers. -/
def pyErrMsg : PyErr → String
  | .steam m => m
  | .typeErr m => m
  | .attrErr m => m
  | .keyErr m => m

/-- First value bound to a key in a JSON object, as Python dict lookup
(dicts have unique keys, so first match is the match). -/
def lookupFirst {α : Type} : List (String × α) → String → Option α
  | [], _ => none
  | (k', v) :: fs, k => if k' = k then some v else lookupFirst fs k

/-- Python truthiness of a JSON value (`if not x`-style tests). -/
def jtruthy : JValue → Bool
  | .null => false
  | .bool b => b
  | .num n => n != 0
  | .str s => s != ""
  | .arr xs => !xs.isEmpty
  | .obj fs => !fs.isEmpty

/-- Python truthiness where `none` models Python's `None`. -/
def jtruthyOpt : Option JValue → Bool
  | none => false
  | some v => jtruthy v

/-- Python `d.get(key, default)`: only dicts have `.get`; on any other value
the attribute access raises `AttributeError`. -/
def pyGetD : JValue → String → JValue → Except PyErr JValue
  | .obj fs, k, d => .ok ((lookupFirst fs k).getD d)
  | _, _, _ => .error (.attrErr "object has no attribute get")

/-- Python `d.get(key)` with the default `None`, kept as an `Option`. -/
def pyGetOpt : JValue → String → Except PyErr (Option JValue)
  | .obj fs, k => .ok (lookupFirst fs k)
  | _, _ => .error (.attrErr "object has no attribute get")

/-- Python subscript `v[key]` with a string key: `KeyError` on a dict missing
the key, `TypeError` on values that are not string-subscriptable. -/
def pyIndex : JValue → String → Except PyErr JValue
  | .obj fs, k =>
    match lookupFirst fs k with
    | some v => .ok v
    | none => .error (.keyErr k)
  | _, _ => .error (.typeErr "value is not subscriptable with a string key")

/-- Python iteration `for s in v`: lists yield elements, strings yield
one-character strings, dicts yield their keys, everything else raises
`TypeError`. -/
def pyIter : JValue → Except PyErr (List JValue)
  | .arr xs => .ok xs
  | .str s => .ok (s.data.map (fun c => .str (String.singleton c)))
  | .obj fs => .ok (fs.map (fun p => .str p.1))
  | _ => .error (.typeErr "object is not iterable")

/-- Python `key in v` for a string key: key membership on dicts, element
equality on lists, substring test on strings, `TypeError` otherwise. -/
def pyContains (k : String) : JValue → Except PyErr Bool
  | .obj fs => .ok (fs.any (fun p => p.1 == k))
  | .arr xs => .ok (xs.any (fun x => match x with | .str s => s == k | _ => false))
  | .str s => .ok ((s.splitOn k).length != 1)
  | _ => .error (.typeErr "argument is not iterable")

/-- Python `len(v)` on JSON values. -/
def pyLen : JValue → Except PyErr Nat
  | .str s => .ok s.length
  | .arr xs => .ok xs.length
  | .obj fs => .ok fs.length
  | _ => .error (.typeErr "object has no length")

/-- Python `except TypeError: x = d` around a computation. -/
def catchTypeErr {α : Type} (x : Except PyErr α) (d : α) : Except PyErr α :=
  match x with
  | .error (.typeErr _) => .ok d
  | r => r

/- ## Stage 1: identifier extraction (`extract_app_id`, lines 16-24) -/

/-- Characters kept by Python `str.strip()`: the list with leading and
trailing whitespace removed. -/
def stripChars (l : List Char) : List Char :=
  ((l.dropWhile Char.isWhitespace).reverse.dropWhile Char.isWhitespace).reverse

/-- Python `url.strip()`. -/
def pyStrip (s : String) : String := String.mk (stripChars s.data)

/-- The literal pattern text around the digit group in `r"/app/(\d+)"`. -/
def appPat : List Char := ['/', 'a', 'p', 'p', '/']

/-- Longest run of decimal digits at the head of the list: the greedy `\d+`. -/
def leadingDigits : List Char → List Char
  | [] => []
  | c :: cs => if c.isDigit then c :: leadingDigits cs else []

/-- Attempt of `re.search` at one position: `/app/` followed by at least one
digit, returning the greedy digit group. -/
def matchAppAt (cs : List Char) : Option (List Char) :=
  if cs.take 5 = appPat then
    let ds := leadingDigits (cs.drop 5)
    if ds.isEmpty then none else some ds
  else none

/-- `re.search(r"/app/(\d+)", url)`: the digit group of the leftmost
position where the pattern matches. -/
def searchApp : List Char → Option (List Char)
  | [] => none
  | c :: cs =>
    match matchAppAt (c :: cs) with
    | some ds => some ds
    | none => searchApp cs

/-- Lines 16-24: reject empty or whitespace-only input, then search for
`/app/(\d+)` and return the digit group of the first match.  The
`isinstance(url, str)` guard is enforced by the type of the argument. -/
def extract_app_id (url : String) : Except PyErr String :=
  if pyStrip url = "" then
    .error (.steam "URL is empty or not a string")
  else
    match searchApp url.data with
    | none => .error (.steam "Invalid Steam product URL")
    | some ds => .ok (String.mk ds)

/- ## Stage 2: remote fetch (`fetch_steam_data`, lines 27-49) -/

/-- Outcome of the single `requests.get` call for one app id, as seen by the
script after lines 30-41: a timeout, another transport or HTTP-status
failure, an unparseable body, or a parsed JSON object body.  The appdetails
envelope is a JSON object keyed by app id (spec section 6), so the parsed
body is modelled as an association list. -/
inductive NetOutcome where
  | timeout
  | netError (msg : String)
  | badJson
  | body (data : List (String × JValue))

/-- External collaborators of one run: the network keyed by the requested app
id, and the possibility of an `OSError` when writing a given path. -/
structure Env where
  net : String → NetOutcome
  disk : String → Option String

/-- Lines 27-49: map the transport outcome to `SteamExtractorError`s, check
the top-level key, check the per-id `success` flag, and return
`data[app_id]["data"]`. -/
def fetch_steam_data (app_id : String) (net : NetOutcome) : Except PyErr JValue :=
  match net with
  | .timeout => .error (.steam "Steam API request timed out")
  | .netError e => .error (.steam ("Network error: " ++ e))
  | .badJson => .error (.steam "Invalid JSON received from Steam")
  | .body data =>
    match lookupFirst data app_id with
    | none => .error (.steam "Steam API response missing app ID")
    | some envl =>
      match pyGetOpt envl "success" with
      | .error e => .error e
      | .ok s =>
        if jtruthyOpt s then pyIndex envl "data"
        else .error (.steam "Steam API returned success=false")

/- ## Stage 3: payload construction (`build_payload`, lines 52-70) -/

/-- The dict literal returned at lines 62-70, with its field order. -/
def payload_obj (app_id url : String) (name header : JValue)
    (screenshots : List JValue) : JValue :=
  .obj [("app_id", .str app_id), ("name", name), ("source", .str url),
        ("images", .obj [("header", header), ("screenshots", .arr screenshots)])]

/-- The list comprehension body at lines 54-58: walk the entries, keep
`s["path_full"]` for every entry `s` with `"path_full" in s`. -/
def collectShots : List JValue → Except PyErr (List JValue)
  | [] => .ok []
  | s :: rest =>
    match pyContains "path_full" s with
    | .error e => .error e
    | .ok true =>
      match pyIndex s "path_full" with
      | .error e => .error e
      | .ok v =>
        match collectShots rest with
        | .error e => .error e
        | .ok tail => .ok (v :: tail)
    | .ok false => collectShots rest

/-- The full comprehension at lines 54-58, including the defaulted
`game.get("screenshots", [])` and the iteration over its result. -/
def comp_shots (game : JValue) : Except PyErr (List JValue) :=
  match pyGetD game "screenshots" (.arr []) with
  | .error e => .error e
  | .ok field =>
    match pyIter field with
    | .error e => .error e
    | .ok items => collectShots items

/-- Lines 52-70: compute the screenshots with `except TypeError` defaulting
to the empty list, then assemble the payload dict with the defaulted `name`
and the `header_image` field (default `None`). -/
def build_payload (app_id url : String) (game : JValue) : Except PyErr JValue :=
  match catchTypeErr (comp_shots game) [] with
  | .error e => .error e
  | .ok screenshots =>
    match pyGetD game "name" (.str "Unknown") with
    | .error e => .error e
    | .ok name =>
      match pyGetD game "header_image" .null with
      | .error e => .error e
      | .ok header => .ok (payload_obj app_id url name header screenshots)

/- ## JSON serialization (`json.dump(payload, f, indent=2)`) -/

/-- Indentation. -/
def spaces (n : Nat) : String := String.mk (List.replicate n ' ')

/-- Hexadecimal digit, lowercase as CPython emits it. -/
def hexDigit (d : Nat) : Char :=
  if d < 10 then Char.ofNat (48 + d) else Char.ofNat (87 + d)

/-- Four-digit hexadecimal rendering for `\uXXXX` escapes. -/
def hex4 (n : Nat) : String :=
  String.mk [hexDigit (n / 4096 % 16), hexDigit (n / 256 % 16),
             hexDigit (n / 16 % 16), hexDigit (n % 16)]

/-- Escape for one code point under `ensure_ascii=True`, with surrogate
pairs beyond the basic plane. -/
def uEsc (n : Nat) : String :=
  if n < 65536 then "\\u" ++ hex4 n
  else "\\u" ++ hex4 (55296 + (n - 65536) / 1024) ++ "\\u" ++ hex4 (56320 + (n - 65536) % 1024)

/-- Character rendering inside a JSON string literal. -/
def escChar (c : Char) : String :=
  if c = '"' then "\\\""
  else if c = '\\' then "\\\\"
  else if c = '\n' then "\\n"
  else if c = '\t' then "\\t"
  else if c = '\r' then "\\r"
  else if c.toNat = 8 then "\\b"
  else if c.toNat = 12 then "\\f"
  else if c.toNat < 32 ∨ 127 ≤ c.toNat then uEsc c.toNat
  else String.singleton c

/-- JSON string literal. -/
def jstr (s : String) : String :=
  "\"" ++ String.join (s.data.map escChar) ++ "\""

mutual

/-- `json.dump` with `indent=2`: `ind` is the indentation of the line the
value starts on. -/
def jdump (ind : Nat) : JValue → String
  | .null => "null"
  | .bool true => "true"
  | .bool false => "false"
  | .num n => toString n
  | .str s => jstr s
  | .arr xs =>
    if xs.isEmpty then "[]"
    else "[\n" ++ jdumpItems (ind + 2) xs ++ "\n" ++ spaces ind ++ "]"
  | .obj fs =>
    if fs.isEmpty then "\x7b\x7d"
    else "\x7b\n" ++ jdumpFields (ind + 2) fs ++ "\n" ++ spaces ind ++ "\x7d"

/-- Array elements, comma separated, one per line. -/
def jdumpItems (ind : Nat) : List JValue → String
  | [] => ""
  | [x] => spaces ind ++ jdump ind x
  | x :: y :: xs => spaces ind ++ jdump ind x ++ ",\n" ++ jdumpItems ind (y :: xs)

/-- Object members, comma separated, one per line. -/
def jdumpFields (ind : Nat) : List (String × JValue) → String
  | [] => ""
  | [(k, v)] => spaces ind ++ jstr k ++ ": " ++ jdump ind v
  | (k, v) :: f :: fs =>
    spaces ind ++ jstr k ++ ": " ++ jdump ind v ++ ",\n" ++ jdumpFields ind (f :: fs)

end

/- ## Stage 4: persistence (`save_json`, lines 73-82) -/

/-- The output file system: association list from paths to file contents. -/
def Files : Type := List (String × String)

/-- Create or overwrite one file, keeping its position when it exists. -/
def setFile : Files → String → String → Files
  | [], k, v => [(k, v)]
  | (a, b) :: fs, k, v => if a = k then (k, v) :: fs else (a, b) :: setFile fs k v

/-- `os.path.join(OUTPUT_DIR, f"app_{app_id}.json")` with `OUTPUT_DIR =
"output"` (lines 7, 74). -/
def save_path (app_id : String) : String := "output/app_" ++ app_id ++ ".json"

/-- Lines 73-82: serialize the payload to the per-id path, wrapping an
`OSError` into a `SteamExtractorError`.  The write itself is returned as a
path-content pair and applied to the file system by the caller; the only
statement after the write in `process_url` is the image count, which never
fails on a payload produced by `build_payload`, so this state passing agrees
with the script, where the file is written before the count is printed. -/
def save_json (env : Env) (app_id : String) (payload : JValue) :
    Except PyErr (String × String) :=
  match env.disk (save_path app_id) with
  | some e => .error (.steam ("Failed to write JSON file: " ++ e))
  | none => .ok (save_path app_id, jdump 0 payload)

/- ## Driver (`process_url`, lines 85-105, and the main loop, lines 108-126) -/

/-- `len(payload["images"]["screenshots"])` and the conditional on
`payload["images"]["header"]` at lines 94-96. -/
def image_count (payload : JValue) : Except PyErr Nat :=
  match pyIndex payload "images" with
  | .error e => .error e
  | .ok imgs =>
    match pyIndex imgs "header" with
    | .error e => .error e
    | .ok header =>
      match pyIndex payload "images" with
      | .error e => .error e
      | .ok imgs2 =>
        match pyIndex imgs2 "screenshots" with
        | .error e => .error e
        | .ok shots =>
          match pyLen shots with
          | .error e => .error e
          | .ok n => .ok ((if jtruthy header then 1 else 0) + n)

/-- The body of the `try` block at lines 88-98 for one URL: the four stages
in order, producing the pending file write and the reported image count. -/
def run_item (url : String) (env : Env) : Except PyErr ((String × String) × Nat) :=
  match extract_app_id url with
  | .error e => .error e
  | .ok app_id =>
    match fetch_steam_data app_id (env.net app_id) with
    | .error e => .error e
    | .ok game =>
      match build_payload app_id url game with
      | .error e => .error e
      | .ok payload =>
        match save_json env app_id payload with
        | .error e => .error e
        | .ok w =>
          match image_count payload with
          | .error e => .error e
          | .ok n => .ok (w, n)

/-- Per-item console outcome: the success line with the image count, the
`SteamExtractorError` line, or the catch-all line. -/
inductive Report where
  | success (count : Nat)
  | failure (msg : String)
  | unexpected (msg : String)

/-- Lines 85-105: run the stages, apply the write on success, convert any
failure to a report; nothing propagates. -/
def process_url (url : String) (env : Env) (fs : Files) : Files × Report :=
  match run_item url env with
  | .ok ((path, content), n) => (setFile fs path content, .success n)
  | .error (.steam m) => (fs, .failure m)
  | .error e => (fs, .unexpected (pyErrMsg e))

/-- The `for url in urls` loop at lines 123-124, collecting the per-item
reports in input order. -/
def runBatch (urls : List String) (env : Env) (fs : Files) : Files × List Report :=
  match urls with
  | [] => (fs, [])
  | u :: rest =>
    let pr := process_url u env fs
    let rb := runBatch rest env pr.1
    (rb.1, pr.2 :: rb.2)

/-- Lines 108-113: strip each line of the input file and drop blank lines.
The file is modelled by its list of lines. -/
def load_urls (lines : List String) : List String :=
  (lines.map pyStrip).filter (fun l => l != "")

/-- The whole batch: `load_urls` then the driver loop. -/
def run_main (lines : List String) (env : Env) (fs : Files) : Files × List Report :=
  runBatch (load_urls lines) env fs

/- ## Spec-side vocabulary -/

/-- Messages raised at the two `InvalidInput` sites of the extractor
(lines 18 and 22). -/
def invalidInputMsgs : List String :=
  ["URL is empty or not a string", "Invalid Steam product URL"]

/-- Messages raised at the two `InvalidResponse` sites of the fetcher
(lines 41 and 44). -/
def invalidResponseMsgs : List String :=
  ["Invalid JSON received from Steam", "Steam API response missing app ID"]

/-- Message raised at the `RemoteFailure` site of the fetcher (line 47). -/
def remoteFailureMsg : String := "Steam API returned success=false"

/-- True when the list does not start with a decimal digit, so a digit run
ending right before it is maximal. -/
def noDigitHead : List Char → Bool
  | [] => true
  | c :: _ => !c.isDigit

/-- Declarative reading of one occurrence of `/app/<digits>`: at offset `i`
the text continues with `/app/`, then the nonempty all-digit group `ds`,
then a remainder not starting with a digit (so `ds` is the greedy group). -/
def MatchesAt (cs : List Char) (i : Nat) (ds : List Char) : Prop :=
  ds ≠ [] ∧ ds.all Char.isDigit = true ∧
  ∃ rest, cs.drop i = appPat ++ ds ++ rest ∧ noDigitHead rest = true

/-- Declarative reading of the first match of `/app/<digits>`: a match whose
offset is least among all matches. -/
def FirstAppMatch (cs ds : List Char) : Prop :=
  ∃ i, MatchesAt cs i ds ∧ ∀ j ds', MatchesAt cs j ds' → i ≤ j

/-- Full-size path of one screenshots entry, when the entry is an object
carrying one. -/
def shotOf : JValue → Option JValue
  | .obj fs => lookupFirst fs "path_full"
  | _ => none

/-- Whether a JSON value is an object. -/
def isObjB : JValue → Bool
  | .obj _ => true
  | _ => false

/-- Pure field read on a JSON object. -/
def getField : JValue → String → Option JValue
  | .obj fs, k => lookupFirst fs k
  | _, _ => none

/-- The header slot of a built payload. -/
def headerField (p : JValue) : Option JValue :=
  (getField p "images").bind (fun i => getField i "header")

/-- The claim's notion of a header image being present in the built payload:
the slot holds a value other than `null` (the spec calls a missing header
"absent/null"). -/
def headerPresentB (p : JValue) : Bool :=
  match headerField p with
  | some .null => false
  | some _ => true
  | none => false

/-- Number of screenshots of a built payload, as the claim counts them. -/
def statedShotCount (p : JValue) : Nat :=
  match (getField p "images").bind (fun i => getField i "screenshots") with
  | some (.arr l) => l.length
  | _ => 0

/-- Claim C6 as stated: for every successfully processed item, the reported
image count is 1 if a header image is present in the built payload plus the
number of screenshots, else 0 plus the number of screenshots.  Stated from
the spec's words, to be compared against the code. -/
def ImageCountClaim : Prop :=
  ∀ (url : String) (env : Env) (w : String × String) (n : Nat) (a : String)
    (game p : JValue),
    run_item url env = .ok (w, n) →
    extract_app_id url = .ok a →
    fetch_steam_data a (env.net a) = .ok game →
    build_payload a url game = .ok p →
    n = (if headerPresentB p then 1 else 0) + statedShotCount p

/-- Number of `SteamExtractorError` lines among the reports. -/
def countErrors (rs : List Report) : Nat :=
  (rs.filter (fun r => match r with | .failure _ => true | _ => false)).length

/- ## File-write algebra used for idempotence -/

/-- Apply a sequence of writes to the file system, left to right. -/
def applyW : Files → List (String × String) → Files
  | fs, [] => fs
  | fs, (k, v) :: ws => applyW (setFile fs k v) ws

/-- Whether a path already exists in the file system. -/
def keyMem (k : String) (fs : Files) : Bool := fs.any (fun p => p.1 == k)

/-- The writes a batch performs, in order: one per successful item. -/
def batchWrites (urls : List String) (env : Env) : List (String × String) :=
  urls.filterMap (fun u =>
    match run_item u env with
    | .ok (w, _) => some w
    | .error _ => none)

/- ## Concrete instances used by the claims -/

/-- Input file of three lines whose second line fails extraction. -/
def exLines : List String :=
  ["https://store.steampowered.com/app/10/", "not a product page",
   "https://store.steampowered.com/app/20/"]

/-- Environment where every id resolves successfully to a minimal record. -/
def okEnv : Env :=
  ⟨fun app_id => .body [(app_id, .obj [("success", .bool true),
     ("data", .obj [("name", .str "G")])])],
   fun _ => none⟩

/-- The remote record of spec section 8. -/
def exampleGame : JValue :=
  .obj [("name", .str "Game X"), ("header_image", .str "http://h.jpg"),
    ("screenshots", .arr [.obj [("path_full", .str "http://s1.jpg")],
      .obj [("id", .num 2)], .obj [("path_full", .str "http://s3.jpg")]])]

/-- Environment serving the section 8 record for every id. -/
def exampleEnv : Env :=
  ⟨fun app_id => .body [(app_id, .obj [("success", .bool true),
     ("data", exampleGame)])], fun _ => none⟩

/-- Environment whose envelope carries `success = false` for every id. -/
def failEnv : Env :=
  ⟨fun app_id => .body [(app_id, .obj [("success", .bool false)])],
   fun _ => none⟩

/-- Environment serving a record whose header image is the empty string. -/
def emptyHeaderEnv : Env :=
  ⟨fun app_id => .body [(app_id, .obj [("success", .bool true),
     ("data", .obj [("header_image", .str "")])])], fun _ => none⟩

/-- Payload the script builds from `emptyHeaderEnv` for the URL `/app/1`. -/
def emptyHeaderPayload : JValue :=
  payload_obj "1" "/app/1" (.str "Unknown") (.str "") []

/-- A pre-existing file system unrelated to the processed id. -/
def exFs : Files := [("output/app_7.json", "old")]

/- ## Lemmas about stripping and the regex search -/

theorem stripChars_nil {l : List Char} (h : stripChars l = []) :
    ∀ c ∈ l, c.isWhitespace = true := by
  unfold stripChars at h
  rw [List.reverse_eq_nil_iff] at h
  rw [List.dropWhile_eq_nil_iff] at h
  have hdrop : ∀ c ∈ l.dropWhile Char.isWhitespace, c.isWhitespace = true := by
    intro c hc
    exact h c (List.mem_reverse.mpr hc)
  intro c hc
  rcases List.mem_append.mp
      ((List.takeWhile_append_dropWhile (p := Char.isWhitespace) (l := l)) ▸ hc) with h1 | h2
  · exact List.mem_takeWhile_imp h1
  · exact hdrop c h2

theorem leadingDigits_all {cs : List Char} : ∀ c ∈ leadingDigits cs, c.isDigit = true := by
  induction cs with
  | nil => intro c hc; cases hc
  | cons a cs ih =>
    intro c hc
    unfold leadingDigits at hc
    by_cases ha : a.isDigit
    · rw [if_pos ha] at hc
      rcases List.mem_cons.mp hc with rfl | hmem
      · exact ha
      · exact ih c hmem
    · rw [if_neg ha] at hc
      cases hc

theorem leadingDigits_append {ds rest : List Char}
    (hd : ∀ c ∈ ds, c.isDigit = true) (hr : noDigitHead rest = true) :
    leadingDigits (ds ++ rest) = ds := by
  induction ds with
  | nil =>
    cases rest with
    | nil => rfl
    | cons c r =>
      simp only [noDigitHead, Bool.not_eq_true'] at hr
      simp [leadingDigits, hr]
  | cons d ds ih =>
    have hdd : d.isDigit = true := hd d (List.mem_cons_self d ds)
    have hstep : (d :: ds) ++ rest = d :: (ds ++ rest) := rfl
    rw [hstep]
    unfold leadingDigits
    rw [if_pos hdd, ih (fun c hc => hd c (List.mem_cons_of_mem d hc))]

theorem leadingDigits_split (cs : List Char) :
    ∃ rest, cs = leadingDigits cs ++ rest ∧ noDigitHead rest = true := by
  induction cs with
  | nil => exact ⟨[], rfl, rfl⟩
  | cons c cs ih =>
    by_cases hc : c.isDigit
    · obtain ⟨rest, he, hr⟩ := ih
      refine ⟨rest, ?_, hr⟩
      simp only [leadingDigits, hc, if_true, List.cons_append]
      exact congrArg (c :: ·) he
    · refine ⟨c :: cs, ?_, ?_⟩
      · simp [leadingDigits, hc]
      · simp [noDigitHead, hc]

theorem matchAppAt_iff (cs ds : List Char) :
    matchAppAt cs = some ds ↔ MatchesAt cs 0 ds := by
  constructor
  · intro h
    unfold matchAppAt at h
    by_cases ht : cs.take 5 = appPat
    · rw [if_pos ht] at h
      obtain ⟨rest, hsplit, hr⟩ := leadingDigits_split (cs.drop 5)
      set ld := leadingDigits (cs.drop 5) with hld
      by_cases he : ld.isEmpty
      · rw [if_pos he] at h
        cases h
      · rw [if_neg he] at h
        have hds : ds = ld := (Option.some.inj h).symm
        refine ⟨?_, ?_, rest, ?_, hr⟩
        · intro hnil
          apply he
          rw [← hds, hnil]
          rfl
        · rw [hds, hld]
          exact List.all_eq_true.mpr leadingDigits_all
        · rw [List.drop_zero]
          conv_lhs => rw [← List.take_append_drop 5 cs]
          rw [ht, hsplit, hds, List.append_assoc]
    · rw [if_neg ht] at h
      cases h
  · rintro ⟨hne, hall, rest, heq, hr⟩
    rw [List.drop_zero] at heq
    have h5 : appPat.length = 5 := rfl
    have ht : cs.take 5 = appPat := by
      rw [heq, List.append_assoc, ← h5, List.take_left]
    have hd : cs.drop 5 = ds ++ rest := by
      rw [heq, List.append_assoc, ← h5, List.drop_left]
    have hld : leadingDigits (cs.drop 5) = ds := by
      rw [hd]
      exact leadingDigits_append (fun c hc => List.all_eq_true.mp hall c hc) hr
    unfold matchAppAt
    simp only [ht, if_true, hld]
    cases ds with
    | nil => exact absurd rfl hne
    | cons d ds => simp [List.isEmpty]

theorem matchesAt_succ (c : Char) (cs : List Char) (i : Nat) (ds : List Char) :
    MatchesAt (c :: cs) (i + 1) ds ↔ MatchesAt cs i ds := by
  unfold MatchesAt
  rw [List.drop_succ_cons]

theorem searchApp_sound (cs ds : List Char) (h : searchApp cs = some ds) :
    ∃ i, MatchesAt cs i ds := by
  induction cs with
  | nil => simp [searchApp] at h
  | cons c cs ih =>
    unfold searchApp at h
    cases hm : matchAppAt (c :: cs) with
    | some d =>
      rw [hm] at h
      cases h
      exact ⟨0, (matchAppAt_iff _ _).mp hm⟩
    | none =>
      rw [hm] at h
      obtain ⟨i, hi⟩ := ih h
      exact ⟨i + 1, (matchesAt_succ c cs i ds).mpr hi⟩

theorem searchApp_none (cs : List Char) (h : searchApp cs = none) :
    ∀ i ds, ¬ MatchesAt cs i ds := by
  induction cs with
  | nil =>
    rintro i ds ⟨hne, hall, rest, heq, hr⟩
    rw [List.drop_nil] at heq
    simp [appPat] at heq
  | cons c cs ih =>
    intro i ds hm
    unfold searchApp at h
    cases hmm : matchAppAt (c :: cs) with
    | some d => rw [hmm] at h; cases h
    | none =>
      rw [hmm] at h
      cases i with
      | zero => rw [(matchAppAt_iff _ _).mpr hm] at hmm; cases hmm
      | succ i => exact ih h i ds ((matchesAt_succ c cs i ds).mp hm)

theorem searchApp_complete (cs ds : List Char) (h : FirstAppMatch cs ds) :
    searchApp cs = some ds := by
  induction cs with
  | nil =>
    obtain ⟨i, ⟨hne, hall, rest, heq, hr⟩, _⟩ := h
    rw [List.drop_nil] at heq
    simp [appPat] at heq
  | cons c cs ih =>
    obtain ⟨i, hm, hmin⟩ := h
    cases hmm : matchAppAt (c :: cs) with
    | some d =>
      have h0 : MatchesAt (c :: cs) 0 d := (matchAppAt_iff _ _).mp hmm
      have hi0 : i = 0 := Nat.le_zero.mp (hmin 0 d h0)
      subst hi0
      rw [(matchAppAt_iff _ _).mpr hm] at hmm
      cases hmm
      simp [searchApp, (matchAppAt_iff _ _).mpr hm]
    | none =>
      have hi0 : i ≠ 0 := by
        intro h0
        subst h0
        rw [(matchAppAt_iff _ _).mpr hm] at hmm
        cases hmm
      obtain ⟨i', rfl⟩ : ∃ i', i = i' + 1 := ⟨i - 1, (Nat.succ_pred_eq_of_pos (Nat.pos_of_ne_zero hi0)).symm⟩
      have hfirst : FirstAppMatch cs ds := by
        refine ⟨i', (matchesAt_succ c cs i' ds).mp hm, ?_⟩
        intro j ds' hj
        have := hmin (j + 1) ds' ((matchesAt_succ c cs j ds').mpr hj)
        omega
      simp [searchApp, hmm, ih hfirst]

/-- C1: for every URL string containing a substring of the form
`/app/<digits>`, the extractor returns the digits of the first such match
exactly; for every input that is empty, whitespace-only, or lacks the
pattern anywhere, it fails with an `InvalidInput` message.  (The
non-string-argument case is enforced by the argument type.) -/
theorem extract_app_id_spec (url : String) :
    (∀ ds, FirstAppMatch url.data ds → extract_app_id url = .ok (String.mk ds)) ∧
    ((∀ i ds, ¬ MatchesAt url.data i ds) →
      ∃ m, extract_app_id url = .error (.steam m) ∧ m ∈ invalidInputMsgs) := by
  constructor
  · intro ds h
    have hs := searchApp_complete url.data ds h
    have hws : ¬ pyStrip url = "" := by
      intro hw
      obtain ⟨i, ⟨hne, hall, rest, heq, hr⟩, _⟩ := h
      have hmem : '/' ∈ url.data := by
        have hm : '/' ∈ url.data.drop i := by rw [heq]; simp [appPat]
        exact List.drop_subset i url.data hm
      have hstrip : stripChars url.data = [] := by
        simpa [pyStrip] using congrArg String.data hw
      have := stripChars_nil hstrip '/' hmem
      simp at this
    simp [extract_app_id, hws, hs]
  · intro h
    by_cases hws : pyStrip url = ""
    · exact ⟨"URL is empty or not a string", by simp [extract_app_id, hws],
        by simp [invalidInputMsgs]⟩
    · cases hs : searchApp url.data with
      | some ds =>
        obtain ⟨i, hm⟩ := searchApp_sound _ _ hs
        exact absurd hm (h i ds)
      | none =>
        exact ⟨"Invalid Steam product URL", by simp [extract_app_id, hws, hs],
          by simp [invalidInputMsgs]⟩

/-- C1 witness: concrete first-match extraction and concrete rejection. -/
theorem extract_app_id_spec_witness :
    extract_app_id "/app/400/Portal" = .ok "400" ∧
    (∃ m, extract_app_id "not a product page" = .error (.steam m) ∧
      m ∈ invalidInputMsgs) := by
  constructor
  · exact (extract_app_id_spec "/app/400/Portal").1 "400".data
      ⟨0, ⟨by decide, by decide, "/Portal".data, by decide, by decide⟩,
        fun j ds' _ => Nat.zero_le j⟩
  · exact (extract_app_id_spec "not a product page").2
      (searchApp_none _ (by decide))

/- ## The fetcher's envelope handling -/

/-- C3: given a parseable body containing a top-level key equal to the
requested id, the fetcher fails with the `RemoteFailure` message exactly when
that id's envelope has a falsy or absent success flag, and otherwise returns
exactly the value at `response[id]["data"]`; a body lacking the key fails
with an `InvalidResponse` message. -/
theorem fetch_envelope_spec (app_id : String) (data efs : List (String × JValue))
    (h : lookupFirst data app_id = some (.obj efs)) :
    (fetch_steam_data app_id (.body data) = .error (.steam remoteFailureMsg) ↔
      jtruthyOpt (lookupFirst efs "success") = false) ∧
    (∀ d, jtruthyOpt (lookupFirst efs "success") = true →
      lookupFirst efs "data" = some d →
      fetch_steam_data app_id (.body data) = .ok d) ∧
    (∀ data2 : List (String × JValue), lookupFirst data2 app_id = none →
      ∃ m, fetch_steam_data app_id (.body data2) = .error (.steam m) ∧
        m ∈ invalidResponseMsgs) := by
  refine ⟨?_, ?_, ?_⟩
  · cases ht : jtruthyOpt (lookupFirst efs "success") with
    | true =>
      simp only [fetch_steam_data, h, pyGetOpt, ht, if_true]
      constructor
      · intro hx
        cases hd : lookupFirst efs "data" with
        | some v => rw [pyIndex, hd] at hx; cases hx
        | none => rw [pyIndex, hd] at hx; cases hx
      · intro hx
        cases hx
    | false =>
      simp only [fetch_steam_data, h, pyGetOpt, ht, Bool.false_eq_true, if_false]
      simp [remoteFailureMsg]
  · intro d ht hd
    simp [fetch_steam_data, h, pyGetOpt, ht, pyIndex, hd]
  · intro data2 h2
    exact ⟨"Steam API response missing app ID",
      by simp [fetch_steam_data, h2], by simp [invalidResponseMsgs]⟩

/-- C3 witness: concrete success, remote failure, and missing key. -/
theorem fetch_envelope_spec_witness :
    (fetch_steam_data "10" (.body [("10", .obj [("success", .bool false),
        ("data", .str "D")])]) = .error (.steam remoteFailureMsg) ↔
      jtruthyOpt (lookupFirst [("success", JValue.bool false),
        ("data", JValue.str "D")] "success") = false) ∧
    fetch_steam_data "10" (.body [("10", .obj [("success", .bool true),
      ("data", .str "D")])]) = .ok (.str "D") ∧
    (∃ m, fetch_steam_data "10" (.body []) = .error (.steam m) ∧
      m ∈ invalidResponseMsgs) := by
  refine ⟨?_, ?_, ?_⟩
  · exact (fetch_envelope_spec "10" [("10", .obj [("success", .bool false),
      ("data", .str "D")])] [("success", .bool false), ("data", .str "D")]
      rfl).1
  · exact (fetch_envelope_spec "10" [("10", .obj [("success", .bool true),
      ("data", .str "D")])] [("success", .bool true), ("data", .str "D")]
      rfl).2.1 (.str "D") rfl rfl
  · exact (fetch_envelope_spec "10" [("10", .obj [("success", .bool true),
      ("data", .str "D")])] [("success", .bool true), ("data", .str "D")]
      rfl).2.2 [] rfl

/- ## The payload builder -/

theorem lookupFirst_of_any {α : Type} (fs : List (String × α)) (k : String)
    (h : fs.any (fun p => p.1 == k) = true) : ∃ v, lookupFirst fs k = some v := by
  induction fs with
  | nil => cases h
  | cons p fs ih =>
    obtain ⟨a, b⟩ := p
    rw [List.any_cons] at h
    by_cases hk : a = k
    · exact ⟨b, by rw [lookupFirst, if_pos hk]⟩
    · have hrest : fs.any (fun p => p.1 == k) = true := by
        rcases Bool.or_eq_true_iff.mp h with h1 | h2
        · exact absurd (by simpa using h1) hk
        · exact h2
      obtain ⟨v, hv⟩ := ih hrest
      exact ⟨v, by rw [lookupFirst, if_neg hk]; exact hv⟩

theorem lookupFirst_none_of_any {α : Type} (fs : List (String × α)) (k : String)
    (h : fs.any (fun p => p.1 == k) = false) : lookupFirst fs k = none := by
  induction fs with
  | nil => rfl
  | cons p fs ih =>
    rw [List.any_cons, Bool.or_eq_false_iff] at h
    have hk : ¬ p.1 = k := by simpa using h.1
    cases p
    simpa [lookupFirst, hk] using ih h.2

theorem collectShots_classify (items : List JValue) :
    (∃ l, collectShots items = .ok l) ∨
    (∃ m, collectShots items = .error (.typeErr m)) := by
  induction items with
  | nil => exact .inl ⟨[], rfl⟩
  | cons s rest ih =>
    cases s with
    | null => exact .inr ⟨_, rfl⟩
    | bool b => exact .inr ⟨_, rfl⟩
    | num n => exact .inr ⟨_, rfl⟩
    | str t =>
      cases hb : (t.splitOn "path_full").length != 1 with
      | false =>
        have hred : collectShots (JValue.str t :: rest) = collectShots rest := by
          simp [collectShots, pyContains, hb]
        rw [hred]
        exact ih
      | true =>
        refine .inr ⟨"value is not subscriptable with a string key", ?_⟩
        simp [collectShots, pyContains, hb, pyIndex]
    | arr xs =>
      cases hb : xs.any (fun x => match x with | .str s => s == "path_full" | _ => false) with
      | false =>
        have hred : collectShots (JValue.arr xs :: rest) = collectShots rest := by
          simp [collectShots, pyContains, hb]
        rw [hred]
        exact ih
      | true =>
        refine .inr ⟨"value is not subscriptable with a string key", ?_⟩
        simp [collectShots, pyContains, hb, pyIndex]
    | obj sfs =>
      cases hb : sfs.any (fun p => p.1 == "path_full") with
      | false =>
        have hred : collectShots (JValue.obj sfs :: rest) = collectShots rest := by
          simp [collectShots, pyContains, hb]
        rw [hred]
        exact ih
      | true =>
        obtain ⟨v, hv⟩ := lookupFirst_of_any sfs "path_full" hb
        rcases ih with ⟨l, hl⟩ | ⟨m, hm⟩
        · exact .inl ⟨v :: l, by simp [collectShots, pyContains, hb, pyIndex, hv, hl]⟩
        · exact .inr ⟨m, by simp [collectShots, pyContains, hb, pyIndex, hv, hm]⟩

theorem comp_shots_obj_classify (gfs : List (String × JValue)) :
    (∃ l, comp_shots (.obj gfs) = .ok l) ∨
    (∃ m, comp_shots (.obj gfs) = .error (.typeErr m)) := by
  unfold comp_shots
  rw [show pyGetD (.obj gfs) "screenshots" (.arr []) =
    .ok ((lookupFirst gfs "screenshots").getD (.arr [])) from rfl]
  cases hf : (lookupFirst gfs "screenshots").getD (.arr []) with
  | null => exact .inr ⟨_, rfl⟩
  | bool b => exact .inr ⟨_, rfl⟩
  | num n => exact .inr ⟨_, rfl⟩
  | str t => exact collectShots_classify _
  | arr xs => exact collectShots_classify _
  | obj fs2 => exact collectShots_classify _

theorem build_payload_obj_ex (a u : String) (gfs : List (String × JValue)) :
    ∃ shots, build_payload a u (.obj gfs) = .ok (payload_obj a u
      ((lookupFirst gfs "name").getD (.str "Unknown"))
      ((lookupFirst gfs "header_image").getD .null) shots) := by
  have hcomp : ∃ shots, catchTypeErr (comp_shots (.obj gfs)) [] = .ok shots := by
    rcases comp_shots_obj_classify gfs with ⟨l, hl⟩ | ⟨m, hm⟩
    · exact ⟨l, by rw [hl]; rfl⟩
    · exact ⟨[], by rw [hm]; rfl⟩
  obtain ⟨shots, hc⟩ := hcomp
  refine ⟨shots, ?_⟩
  rw [build_payload, hc]
  rfl

/-- C4: for every key-valued remote record, the payload builder never fails,
and the screenshots slot of the produced payload is a sequence — even when
the record's screenshots field is missing, null, a scalar, or otherwise not
iterable in the expected shape. -/
theorem build_payload_total (a u : String) (gfs : List (String × JValue)) :
    ∃ name header shots,
      build_payload a u (.obj gfs) = .ok (payload_obj a u name header shots) :=
  let ⟨shots, h⟩ := build_payload_obj_ex a u gfs
  ⟨_, _, shots, h⟩

theorem collectShots_objs (ss : List JValue) (h : ss.all isObjB = true) :
    collectShots ss = .ok (ss.filterMap shotOf) := by
  induction ss with
  | nil => rfl
  | cons s rest ih =>
    rw [List.all_cons, Bool.and_eq_true] at h
    have hrest := ih h.2
    cases s with
    | obj sfs =>
      cases hb : sfs.any (fun p => p.1 == "path_full") with
      | false =>
        have hnone : lookupFirst sfs "path_full" = none :=
          lookupFirst_none_of_any sfs "path_full" hb
        simp [collectShots, pyContains, hb, hrest, shotOf, hnone]
      | true =>
        obtain ⟨v, hv⟩ := lookupFirst_of_any sfs "path_full" hb
        simp [collectShots, pyContains, hb, pyIndex, hv, hrest, shotOf]
    | null => cases h.1
    | bool b => cases h.1
    | num n => cases h.1
    | str t => cases h.1
    | arr xs => cases h.1

/-- C5: when the record's screenshots field is a sequence of objects, the
built screenshots are exactly the `path_full` values of the entries carrying
one, in source order, entries lacking the field skipped; and on the section 8
record the result is `["http://s1.jpg", "http://s3.jpg"]`. -/
theorem build_screenshots_spec (a u : String) (gfs : List (String × JValue))
    (ss : List JValue)
    (h1 : lookupFirst gfs "screenshots" = some (.arr ss))
    (h2 : ss.all isObjB = true) :
    (∃ name header, build_payload a u (.obj gfs) =
      .ok (payload_obj a u name header (ss.filterMap shotOf))) ∧
    build_payload "1" "u" exampleGame = .ok (payload_obj "1" "u"
      (.str "Game X") (.str "http://h.jpg")
      [.str "http://s1.jpg", .str "http://s3.jpg"]) := by
  constructor
  · have hc : comp_shots (.obj gfs) = .ok (ss.filterMap shotOf) := by
      unfold comp_shots
      rw [show pyGetD (.obj gfs) "screenshots" (.arr []) =
        .ok ((lookupFirst gfs "screenshots").getD (.arr [])) from rfl, h1]
      exact collectShots_objs ss h2
    refine ⟨(lookupFirst gfs "name").getD (.str "Unknown"),
      (lookupFirst gfs "header_image").getD .null, ?_⟩
    rw [build_payload, hc]
    rfl
  · rfl

/-- C5 witness: concrete record with a skipped entry. -/
theorem build_screenshots_spec_witness :
    (∃ name header, build_payload "9" "u9" (.obj [("screenshots",
      .arr [.obj [("path_full", .str "a.jpg")], .obj [("id", .num 1)]])]) =
      .ok (payload_obj "9" "u9" name header
        ([JValue.obj [("path_full", .str "a.jpg")],
          JValue.obj [("id", .num 1)]].filterMap shotOf))) ∧
    build_payload "1" "u" exampleGame = .ok (payload_obj "1" "u"
      (.str "Game X") (.str "http://h.jpg")
      [.str "http://s1.jpg", .str "http://s3.jpg"]) :=
  build_screenshots_spec "9" "u9" _ _ rfl (by decide)

/- ## Shape of a successful item -/

theorem build_ok_shape (a u : String) (g p : JValue)
    (h : build_payload a u g = .ok p) :
    ∃ name header shots, p = payload_obj a u name header shots := by
  cases g with
  | obj gfs =>
    obtain ⟨shots, heq⟩ := build_payload_obj_ex a u gfs
    rw [heq] at h
    exact ⟨_, _, shots, (Except.ok.inj h).symm⟩
  | null => cases h
  | bool b => cases h
  | num n => cases h
  | str s => cases h
  | arr xs => cases h

theorem image_count_payload (a u : String) (name header : JValue)
    (shots : List JValue) :
    image_count (payload_obj a u name header shots) =
      .ok ((if jtruthy header then 1 else 0) + shots.length) := rfl

theorem run_item_shape (url : String) (env : Env) (w : String × String) (n : Nat)
    (h : run_item url env = .ok (w, n)) :
    ∃ a game name header shots,
      extract_app_id url = .ok a ∧
      fetch_steam_data a (env.net a) = .ok game ∧
      build_payload a url game = .ok (payload_obj a url name header shots) ∧
      w = (save_path a, jdump 0 (payload_obj a url name header shots)) ∧
      n = (if jtruthy header then 1 else 0) + shots.length := by
  unfold run_item at h
  cases hext : extract_app_id url with
  | error e => rw [hext] at h; exact Except.noConfusion h
  | ok a =>
    simp only [hext] at h
    cases hf : fetch_steam_data a (env.net a) with
    | error e => rw [hf] at h; exact Except.noConfusion h
    | ok game =>
      simp only [hf] at h
      cases hb : build_payload a url game with
      | error e => rw [hb] at h; exact Except.noConfusion h
      | ok p =>
        obtain ⟨name, header, shots, rfl⟩ := build_ok_shape a url game p hb
        simp only [hb, save_json] at h
        cases hd : env.disk (save_path a) with
        | some e => rw [hd] at h; exact Except.noConfusion h
        | none =>
          simp only [hd, image_count_payload] at h
          have hinj := Except.ok.inj h
          rw [Prod.mk.injEq] at hinj
          exact ⟨a, game, name, header, shots, rfl, hf, hb,
            hinj.1.symm, hinj.2.symm⟩

/- ## The reported image count -/

/-- C6 counterexample: the claim as stated fails on the code.  For the remote
record whose `header_image` is the empty string, the header slot of the built
payload holds a (non-null) value, so the claim predicts a count of 1, but the
script's truthiness test reports 0. -/
theorem image_count_claim_false : ¬ ImageCountClaim := by
  intro h
  have h0 := h "/app/1" emptyHeaderEnv
    (save_path "1", jdump 0 emptyHeaderPayload) 0 "1"
    (JValue.obj [("header_image", .str "")]) emptyHeaderPayload
    rfl rfl rfl rfl
  exact absurd h0 (by decide)

/-- C6 amended: for every successfully processed item, the reported image
count equals 1 if the header value of the built payload is truthy (a
non-null, non-empty value) plus the number of screenshots, and 0 plus the
number of screenshots otherwise; in particular 3 for the section 8 record. -/
theorem image_count_truthy :
    (∀ (url : String) (env : Env) (w : String × String) (n : Nat),
      run_item url env = .ok (w, n) →
      ∃ a game name header shots,
        extract_app_id url = .ok a ∧
        fetch_steam_data a (env.net a) = .ok game ∧
        build_payload a url game = .ok (payload_obj a url name header shots) ∧
        n = (if jtruthy header then 1 else 0) + shots.length) ∧
    (∃ w, run_item "/app/1" exampleEnv = .ok (w, 3)) := by
  constructor
  · intro url env w n h
    obtain ⟨a, game, name, header, shots, h1, h2, h3, _, h5⟩ :=
      run_item_shape url env w n h
    exact ⟨a, game, name, header, shots, h1, h2, h3, h5⟩
  · exact ⟨(save_path "1", jdump 0 (payload_obj "1" "/app/1" (.str "Game X")
      (.str "http://h.jpg") [.str "http://s1.jpg", .str "http://s3.jpg"])),
      rfl⟩

/-- C6 witness: the amended count law at a concrete successful item. -/
theorem image_count_truthy_witness :
    ∃ a game name header shots,
      extract_app_id "/app/1" = .ok a ∧
      fetch_steam_data a (exampleEnv.net a) = .ok game ∧
      build_payload a "/app/1" game =
        .ok (payload_obj a "/app/1" name header shots) ∧
      3 = (if jtruthy header then 1 else 0) + shots.length :=
  image_count_truthy.1 "/app/1" exampleEnv
    (save_path "1", jdump 0 (payload_obj "1" "/app/1" (.str "Game X")
      (.str "http://h.jpg") [.str "http://s1.jpg", .str "http://s3.jpg"]))
    3 rfl

/- ## Remote failure leaves the store unchanged -/

/-- C7: when the envelope's success flag is falsy or absent for an id, the
item writes nothing — the file system is returned unchanged and the report
is the `RemoteFailure` line — and a batch starting with that URL continues
with exactly the reports of the remaining URLs. -/
theorem remote_failure_no_write (url : String) (env : Env) (fs : Files)
    (a : String) (data efs : List (String × JValue))
    (h1 : extract_app_id url = .ok a)
    (h2 : env.net a = .body data)
    (h3 : lookupFirst data a = some (.obj efs))
    (h4 : jtruthyOpt (lookupFirst efs "success") = false) :
    process_url url env fs = (fs, .failure remoteFailureMsg) ∧
    ∀ rest, runBatch (url :: rest) env fs =
      ((runBatch rest env fs).1,
        .failure remoteFailureMsg :: (runBatch rest env fs).2) := by
  have hfetch : fetch_steam_data a (env.net a) =
      .error (.steam remoteFailureMsg) := by
    rw [h2]
    simp only [fetch_steam_data, h3, pyGetOpt, h4, Bool.false_eq_true,
      if_false, remoteFailureMsg]
  have hitem : run_item url env = .error (.steam remoteFailureMsg) := by
    simp only [run_item, h1, hfetch]
  have hp : process_url url env fs = (fs, .failure remoteFailureMsg) := by
    simp only [process_url, hitem]
  refine ⟨hp, fun rest => ?_⟩
  simp only [runBatch, hp]

/-- C7 witness: concrete `success=false` envelope, pre-existing store. -/
theorem remote_failure_no_write_witness :
    process_url "/app/5" failEnv exFs = (exFs, .failure remoteFailureMsg) ∧
    runBatch ["/app/5", "u2"] failEnv exFs =
      ((runBatch ["u2"] failEnv exFs).1,
        .failure remoteFailureMsg :: (runBatch ["u2"] failEnv exFs).2) := by
  have h := remote_failure_no_write "/app/5" failEnv exFs "5"
    [("5", .obj [("success", .bool false)])] [("success", .bool false)]
    rfl rfl rfl rfl
  exact ⟨h.1, h.2 ["u2"]⟩

/- ## Field order of the persisted artifact -/

/-- C9: every successfully persisted artifact is the serialization of a
payload with the fixed field order `app_id`, `name`, `source`, `images`
(`header` then `screenshots` inside `images`); the serializer renders object
members in list order, so the ordering is the same for every payload. -/
theorem artifact_field_order (url : String) (env : Env) (path content : String)
    (n : Nat) (h : run_item url env = .ok ((path, content), n)) :
    ∃ app_id name header shots,
      path = save_path app_id ∧
      content = jdump 0 (payload_obj app_id url name header shots) := by
  obtain ⟨a, game, name, header, shots, _, _, _, hw, _⟩ :=
    run_item_shape url env (path, content) n h
  rw [Prod.mk.injEq] at hw
  exact ⟨a, name, header, shots, hw.1, hw.2⟩

/-- C9 witness: the artifact of a concrete successful item. -/
theorem artifact_field_order_witness :
    ∃ app_id name header shots,
      save_path "1" = save_path app_id ∧
      jdump 0 (payload_obj "1" "/app/1" (.str "Game X") (.str "http://h.jpg")
        [.str "http://s1.jpg", .str "http://s3.jpg"]) =
        jdump 0 (payload_obj app_id "/app/1" name header shots) :=
  artifact_field_order "/app/1" exampleEnv (save_path "1")
    (jdump 0 (payload_obj "1" "/app/1" (.str "Game X") (.str "http://h.jpg")
      [.str "http://s1.jpg", .str "http://s3.jpg"])) 3 rfl

/- ## The batch never aborts -/

theorem runBatch_length (urls : List String) (env : Env) :
    ∀ fs, (runBatch urls env fs).2.length = urls.length := by
  induction urls with
  | nil => intro fs; rfl
  | cons u urls ih => intro fs; simp [runBatch, ih]

/-- C2: every URL of a batch yields exactly one report — a failing item is
reported and never aborts the run — and on the concrete three-line input
whose second line fails extraction, the batch writes exactly 2 files and
reports exactly 1 error among its 3 reports. -/
theorem batch_never_aborts :
    (∀ (urls : List String) (env : Env) (fs : Files),
      (runBatch urls env fs).2.length = urls.length) ∧
    (run_main exLines okEnv []).1.length = 2 ∧
    countErrors (run_main exLines okEnv []).2 = 1 ∧
    (run_main exLines okEnv []).2.length = 3 := by
  refine ⟨fun urls env fs => runBatch_length urls env fs, ?_, ?_, ?_⟩
  · decide
  · decide
  · decide

/- ## Idempotence of the batch -/

theorem keyMem_eq_isSome (fs : Files) (k : String) :
    keyMem k fs = (lookupFirst fs k).isSome := by
  induction fs with
  | nil => rfl
  | cons p fs ih =>
    obtain ⟨a, b⟩ := p
    by_cases h : a = k
    · simp [keyMem, lookupFirst, h]
    · simp only [keyMem, List.any_cons] at ih ⊢
      have hb : ((a, b).1 == k) = false := by simpa using h
      simp [lookupFirst, h, hb, ih]

theorem lookupFirst_setFile_self (fs : Files) (k v : String) :
    lookupFirst (setFile fs k v) k = some v := by
  induction fs with
  | nil => simp [setFile, lookupFirst]
  | cons p fs ih =>
    obtain ⟨a, b⟩ := p
    by_cases h : a = k
    · simp [setFile, lookupFirst, h]
    · simp [setFile, lookupFirst, h, ih]

theorem lookupFirst_setFile_ne (fs : Files) (k k' v : String) (h : k ≠ k') :
    lookupFirst (setFile fs k' v) k = lookupFirst fs k := by
  have h' : ¬ k' = k := Ne.symm h
  induction fs with
  | nil => simp [setFile, lookupFirst, h']
  | cons p fs ih =>
    obtain ⟨a, b⟩ := p
    by_cases ha : a = k'
    · subst ha
      simp [setFile, lookupFirst, h']
    · simp [setFile, lookupFirst, ha, ih]

theorem setFile_absorb (fs : Files) (k v w : String) :
    setFile (setFile fs k v) k w = setFile fs k w := by
  induction fs with
  | nil => simp [setFile]
  | cons p fs ih =>
    obtain ⟨a, b⟩ := p
    by_cases h : a = k
    · simp [setFile, h]
    · simp [setFile, h, ih]

theorem setFile_comm (fs : Files) (k k' v w : String) (hne : k ≠ k')
    (hk : keyMem k fs = true) :
    setFile (setFile fs k v) k' w = setFile (setFile fs k' w) k v := by
  induction fs with
  | nil => simp [keyMem] at hk
  | cons p fs ih =>
    obtain ⟨a, b⟩ := p
    by_cases hak : a = k
    · subst hak
      simp [setFile, Ne.symm hne, hne]
    · have hk' : keyMem k fs = true := by
        simp only [keyMem, List.any_cons] at hk
        rcases Bool.or_eq_true_iff.mp hk with h1 | h2
        · exact absurd (by simpa using h1) hak
        · exact h2
      by_cases hak' : a = k'
      · subst hak'
        simp [setFile, hak]
      · simp [setFile, hak, hak', ih hk']

theorem keyMem_setFile_self (fs : Files) (k v : String) :
    keyMem k (setFile fs k v) = true := by
  rw [keyMem_eq_isSome, lookupFirst_setFile_self]
  rfl

theorem keyMem_setFile_mono (fs : Files) (k k' v : String)
    (h : keyMem k fs = true) : keyMem k (setFile fs k' v) = true := by
  by_cases hk : k = k'
  · subst hk
    exact keyMem_setFile_self fs k v
  · rw [keyMem_eq_isSome, lookupFirst_setFile_ne fs k k' v hk]
    rw [keyMem_eq_isSome] at h
    exact h

theorem keyMem_applyW (ws : List (String × String)) :
    ∀ fs k, keyMem k fs = true → keyMem k (applyW fs ws) = true := by
  induction ws with
  | nil => intro fs k h; exact h
  | cons p ws ih =>
    obtain ⟨a, b⟩ := p
    intro fs k h
    exact ih (setFile fs a b) k (keyMem_setFile_mono fs k a b h)

theorem lookupFirst_applyW_nowrite (ws : List (String × String)) :
    ∀ fs k, ws.any (fun p => p.1 == k) = false →
      lookupFirst (applyW fs ws) k = lookupFirst fs k := by
  induction ws with
  | nil => intro fs k _; rfl
  | cons p ws ih =>
    obtain ⟨a, b⟩ := p
    intro fs k h
    rw [List.any_cons, Bool.or_eq_false_iff] at h
    have hax : ((a, b).1 == k) = false := h.1
    have hak : k ≠ a := by
      intro he
      subst he
      simp at hax
    calc lookupFirst (applyW (setFile fs a b) ws) k
        = lookupFirst (setFile fs a b) k := ih (setFile fs a b) k h.2
      _ = lookupFirst fs k := lookupFirst_setFile_ne fs k a b hak

theorem setFile_lookup_id (fs : Files) (k v : String)
    (h : lookupFirst fs k = some v) : setFile fs k v = fs := by
  induction fs with
  | nil => cases h
  | cons p fs ih =>
    obtain ⟨a, b⟩ := p
    by_cases ha : a = k
    · rw [lookupFirst, if_pos ha] at h
      have hv : v = b := (Option.some.inj h).symm
      subst hv
      subst ha
      rw [setFile, if_pos rfl]
    · rw [lookupFirst, if_neg ha] at h
      rw [setFile, if_neg ha, ih h]

theorem applyW_through (ws : List (String × String)) :
    ∀ fs k v, keyMem k fs = true → ws.any (fun p => p.1 == k) = true →
      applyW (setFile fs k v) ws = applyW fs ws := by
  induction ws with
  | nil => intro fs k v _ hw; cases hw
  | cons p ws ih =>
    obtain ⟨a, b⟩ := p
    intro fs k v hk hw
    by_cases hak : a = k
    · subst hak
      show applyW (setFile (setFile fs a v) a b) ws = applyW (setFile fs a b) ws
      rw [setFile_absorb]
    · rw [List.any_cons, Bool.or_eq_true_iff] at hw
      rcases hw with h1 | h2
      · exact absurd (by simpa using h1) hak
      · show applyW (setFile (setFile fs k v) a b) ws =
          applyW (setFile fs a b) ws
        rw [setFile_comm fs k a v b (fun he => hak he.symm) hk]
        exact ih (setFile fs a b) k v (keyMem_setFile_mono fs k a b hk) h2

theorem applyW_idem (ws : List (String × String)) :
    ∀ fs, applyW (applyW fs ws) ws = applyW fs ws := by
  induction ws with
  | nil => intro fs; rfl
  | cons p ws ih =>
    obtain ⟨k, v⟩ := p
    intro fs
    show applyW (setFile (applyW (setFile fs k v) ws) k v) ws =
      applyW (setFile fs k v) ws
    cases hw : ws.any (fun p => p.1 == k) with
    | true =>
      rw [applyW_through ws (applyW (setFile fs k v) ws) k v
        (keyMem_applyW ws (setFile fs k v) k (keyMem_setFile_self fs k v)) hw]
      exact ih (setFile fs k v)
    | false =>
      have hl : lookupFirst (applyW (setFile fs k v) ws) k = some v := by
        rw [lookupFirst_applyW_nowrite ws (setFile fs k v) k hw]
        exact lookupFirst_setFile_self fs k v
      rw [setFile_lookup_id _ k v hl]
      exact ih (setFile fs k v)

theorem runBatch_files (urls : List String) (env : Env) :
    ∀ fs, (runBatch urls env fs).1 = applyW fs (batchWrites urls env) := by
  induction urls with
  | nil => intro fs; rfl
  | cons u urls ih =>
    intro fs
    cases hr : run_item u env with
    | ok wn =>
      obtain ⟨⟨p, c⟩, n⟩ := wn
      have hp : process_url u env fs = (setFile fs p c, .success n) := by
        simp [process_url, hr]
      have hb : batchWrites (u :: urls) env = (p, c) :: batchWrites urls env := by
        simp [batchWrites, hr]
      simp only [runBatch, hp, hb, applyW]
      exact ih (setFile fs p c)
    | error e =>
      have hp : ∃ r, process_url u env fs = (fs, r) := by
        cases e with
        | steam m => exact ⟨.failure m, by simp [process_url, hr]⟩
        | typeErr m => exact ⟨.unexpected m, by simp [process_url, hr, pyErrMsg]⟩
        | attrErr m => exact ⟨.unexpected m, by simp [process_url, hr, pyErrMsg]⟩
        | keyErr m => exact ⟨.unexpected m, by simp [process_url, hr, pyErrMsg]⟩
      obtain ⟨r, hpr⟩ := hp
      have hb : batchWrites (u :: urls) env = batchWrites urls env := by
        simp [batchWrites, hr]
      simp only [runBatch, hpr, hb]
      exact ih fs

/-- C8: running the batch a second time on the same input lines and the same
environment rewrites every artifact with identical bytes — the resulting
file system equals the one produced by the first run. -/
theorem batch_idempotent (lines : List String) (env : Env) (fs : Files) :
    (run_main lines env (run_main lines env fs).1).1 =
      (run_main lines env fs).1 := by
  unfold run_main
  simp only [runBatch_files]
  exact applyW_idem (batchWrites (load_urls lines) env) fs

/- ## Extracted ids are digit strings and name files inside the output dir -/

theorem extract_ok_inv (url a : String) (h : extract_app_id url = .ok a) :
    ∃ ds, searchApp url.data = some ds ∧ a = String.mk ds := by
  unfold extract_app_id at h
  by_cases hw : pyStrip url = ""
  · rw [if_pos hw] at h
    cases h
  · rw [if_neg hw] at h
    cases hs : searchApp url.data with
    | none => rw [hs] at h; cases h
    | some ds => rw [hs] at h; exact ⟨ds, rfl, (Except.ok.inj h).symm⟩

theorem digit_ne_slash {c : Char} (h : c.isDigit = true) : (c != '/') = true := by
  rcases eq_or_ne c '/' with rfl | hne
  · exact absurd h (by decide)
  · simpa using hne

/-- C10: every successfully extracted id is a nonempty string of decimal
digits, and the output path is the fixed directory joined with a file name
that contains no path separator — the id contributes no traversal. -/
theorem app_id_digits_safe_path (url app_id : String)
    (h : extract_app_id url = .ok app_id) :
    app_id ≠ "" ∧ app_id.data.all Char.isDigit = true ∧
    save_path app_id = "output/" ++ ("app_" ++ app_id ++ ".json") ∧
    ("app_" ++ app_id ++ ".json").data.all (fun c => c != '/') = true := by
  obtain ⟨ds, hs, rfl⟩ := extract_ok_inv url app_id h
  obtain ⟨i, hm⟩ := searchApp_sound url.data ds hs
  obtain ⟨hne, hall, -⟩ := hm
  refine ⟨?_, hall, ?_, ?_⟩
  · intro he
    exact hne (by simpa using congrArg String.data he)
  · apply String.ext
    simp [save_path, String.data_append]
  · simp only [String.data_append, List.all_append, Bool.and_eq_true]
    refine ⟨⟨by decide, ?_⟩, by decide⟩
    rw [List.all_eq_true] at hall ⊢
    exact fun c hc => digit_ne_slash (hall c hc)

/-- C10 witness: concrete extraction and its output path. -/
theorem app_id_digits_safe_path_witness :
    "42" ≠ "" ∧ "42".data.all Char.isDigit = true ∧
    save_path "42" = "output/" ++ ("app_" ++ "42" ++ ".json") ∧
    ("app_" ++ "42" ++ ".json").data.all (fun c => c != '/') = true :=
  app_id_digits_safe_path "/app/42" "42" rfl

end Steam
